import Mathlib

/-!
Verification of the blue/green log watcher (`src/watcher/watcher.py`).

The Python program is a single class `LogWatcher`.  Its state and operations
are embedded here as pure Lean definitions:

* `WatcherState` — the mutable fields `request_window`, `last_pool`,
  `last_alert_time` of the `LogWatcher` instance.
* `Config` — the environment-derived configuration read in `__init__`.
* `send_slack_alert`, `check_failover`, `check_error_rate`,
  `parse_log_line` — direct translations of the methods of the same names.
  The outbound HTTP post is modelled by a `PostResult` oracle argument; time
  (`time.time()`) is an explicit rational argument.
* `processLine` — one iteration of the per-line body of `watch_logs`
  (lines 167–173), and `pollStep` / `followRun` — the size-polling file
  follower loop of `watch_logs` (lines 158–177).
-/

namespace Watcher

/-- Result of the `requests.post` call inside `send_slack_alert`: either an
HTTP response with a status code, or a raised exception. -/
inductive PostResult where
  | response (status : Nat)
  | exn
deriving DecidableEq

/-- Outcome of one call to `send_slack_alert`, mirroring its control flow:
no webhook configured, cooldown suppression, successful send (status 200),
non-200 response, or exception during the post. -/
inductive SendOutcome where
  | noWebhook
  | cooldownActive
  | sent
  | httpError (status : Nat)
  | postFailed
deriving DecidableEq

/-- The HTTP post was actually attempted (the code reached `requests.post`). -/
def SendOutcome.attempted : SendOutcome → Bool
  | .sent => true
  | .httpError _ => true
  | .postFailed => true
  | .noWebhook => false
  | .cooldownActive => false

/-- Configuration read from the environment in `LogWatcher.__init__`. -/
structure Config where
  webhook_url : String
  error_threshold : ℚ
  window_size : Nat
  cooldown : ℚ
deriving DecidableEq

/-- Lookup in the `last_alert_time` dict (Python `dict.get`, no default). -/
def lookupTime : List (String × ℚ) → String → Option ℚ
  | [], _ => none
  | (k2, v) :: rest, k => if k2 = k then some v else lookupTime rest k

/-- Assignment `self.last_alert_time[key] = v` on the dict: replace the value
if the key is present, otherwise add a new entry. -/
def setTime : List (String × ℚ) → String → ℚ → List (String × ℚ)
  | [], k, v => [(k, v)]
  | (k2, v2) :: rest, k, v =>
      if k2 = k then (k, v) :: rest else (k2, v2) :: setTime rest k v

/-- The mutable state of a `LogWatcher` instance: `self.request_window`
(a deque of `upstream_status` strings), `self.last_pool`, and
`self.last_alert_time`. -/
structure WatcherState where
  request_window : List String
  last_pool : Option String
  last_alert_time : List (String × ℚ)
deriving DecidableEq

/-- State after `__init__`: empty window, no pool seen, empty cooldown map. -/
def WatcherState.init : WatcherState :=
  { request_window := [], last_pool := none, last_alert_time := [] }

/-- Python truthiness of an optional string: `None` and `""` are falsy. -/
def truthyStr : Option String → Bool
  | none => false
  | some s => !(s.isEmpty)

/-- `LogWatcher.send_slack_alert` (watcher.py lines 41–82): skip when no
webhook URL is configured; suppress when the per-key cooldown is active
(`dict.get(key, 0)` default); otherwise post.  The timestamp
`last_alert_time[alert_key] = now` is recorded only when the response status
is exactly 200; a non-200 response or an exception leaves the map unchanged. -/
def send_slack_alert (cfg : Config) (st : WatcherState) (alert_key : String)
    (now : ℚ) (tr : PostResult) : WatcherState × SendOutcome :=
  if cfg.webhook_url.isEmpty then (st, .noWebhook)
  else
    let last := (lookupTime st.last_alert_time alert_key).getD 0
    if now - last < cfg.cooldown then (st, .cooldownActive)
    else
      match tr with
      | .response code =>
          if code = 200 then
            ({ st with last_alert_time := setTime st.last_alert_time alert_key now },
             .sent)
          else (st, .httpError code)
      | .exn => (st, .postFailed)

/-- `LogWatcher.check_failover` (lines 84–100): when the observed pool and the
stored pool are both truthy and differ, an alert keyed `failover_<new pool>`
is dispatched; afterwards a truthy pool overwrites `last_pool`.  The produced
failover event `(previous_pool, current_pool)` is returned alongside the
dispatch outcome. -/
def check_failover (cfg : Config) (st : WatcherState) (pool : Option String)
    (now : ℚ) (tr : PostResult) :
    WatcherState × Option ((String × String) × SendOutcome) :=
  let step :=
    if truthyStr pool && truthyStr st.last_pool && !(pool == st.last_pool) then
      let prev := st.last_pool.getD ""
      let cur := pool.getD ""
      let res := send_slack_alert cfg st ("failover_" ++ cur) now tr
      (res.1, some ((prev, cur), res.2))
    else (st, none)
  if truthyStr pool then ({ step.1 with last_pool := pool }, step.2)
  else step

/-- The error classification used in `check_error_rate` line 106:
`s and s.startswith("5")`. -/
def statusIsError (s : String) : Bool :=
  match s.toList with
  | [] => false
  | c :: _ => c = '5'

/-- The window error rate computed at line 107:
`(errors / len(window)) * 100`. -/
def error_rate (w : List String) : ℚ :=
  (((w.filter statusIsError).length : ℚ) / (w.length : ℚ)) * 100

/-- `LogWatcher.check_error_rate` (lines 102–121): below 10 samples nothing
happens; otherwise the rate is compared strictly (`>`) against the threshold
and on breach an alert keyed `"error_rate"` is dispatched. -/
def check_error_rate (cfg : Config) (st : WatcherState) (now : ℚ)
    (tr : PostResult) : WatcherState × Option SendOutcome :=
  if st.request_window.length < 10 then (st, none)
  else if error_rate st.request_window > cfg.error_threshold then
    let res := send_slack_alert cfg st "error_rate" now tr
    (res.1, some res.2)
  else (st, none)

/-- Result dict of `parse_log_line`: the six captured regex groups, with
`pool` and `release` mapped to `None` when the capture is `"-"`. -/
structure ParsedLine where
  pool : Option String
  release : Option String
  upstream_status : String
  upstream : String
  request_time : String
  upstream_response_time : String
deriving DecidableEq

/-- Match a literal run of characters at the head of the input, returning the
remainder of the input on success. -/
def matchLit : List Char → List Char → Option (List Char)
  | [], rest => some rest
  | _ :: _, [] => none
  | l :: ls, r :: rs => if l = r then matchLit ls rs else none

/-- Consume a regex group `([^"]*)"`: the characters before the next double
quote (the capture) and the input after that quote; fails when no quote
remains. -/
def takeUntilQuote : List Char → Option (List Char × List Char)
  | [] => none
  | c :: cs =>
      if c = '"' then some ([], cs)
      else
        match takeUntilQuote cs with
        | none => none
        | some (g, r) => some (c :: g, r)

/-- Match one `label="capture"` unit of the pattern: the literal label
(including its opening quote) followed by a quoted capture. -/
def grabField (lit cs : List Char) : Option (List Char × List Char) :=
  match matchLit lit cs with
  | none => none
  | some r => takeUntilQuote r

/-- The six literal fragments of the regex in `parse_log_line`
(lines 25–28), each ending with the opening quote of its capture group. -/
def patPool : List Char := "pool=\"".toList
def patRelease : List Char := " release=\"".toList
def patUpStatus : List Char := " upstream_status=\"".toList
def patUpstream : List Char := " upstream=\"".toList
def patReqTime : List Char := " request_time=\"".toList
def patUpRespTime : List Char := " upstream_response_time=\"".toList

/-- Python `match.group(i) if match.group(i) != '-' else None` for the
`pool` and `release` groups. -/
def dashOpt (g : List Char) : Option String :=
  if g = ['-'] then none else some (String.mk g)

/-- Attempt the whole regex at one starting position.  Each `[^"]*"` group
is deterministic (the capture cannot cross the closing quote), so this is
exactly the regex's behaviour at a fixed start. -/
def matchAt (cs : List Char) : Option ParsedLine :=
  (grabField patPool cs).bind fun p1 =>
  (grabField patRelease p1.2).bind fun p2 =>
  (grabField patUpStatus p2.2).bind fun p3 =>
  (grabField patUpstream p3.2).bind fun p4 =>
  (grabField patReqTime p4.2).bind fun p5 =>
  (grabField patUpRespTime p5.2).bind fun p6 =>
  some { pool := dashOpt p1.1
         release := dashOpt p2.1
         upstream_status := String.mk p3.1
         upstream := String.mk p4.1
         request_time := String.mk p5.1
         upstream_response_time := String.mk p6.1 }

/-- `re.search`: try the pattern at every starting position, left to right. -/
def searchPattern : List Char → Option ParsedLine
  | [] => none
  | c :: cs =>
      match matchAt (c :: cs) with
      | some p => some p
      | none => searchPattern cs

/-- `LogWatcher.parse_log_line` (lines 24–39): search the line for the
six-field pattern; return the structured record, or `None` when the pattern
does not occur. -/
def parse_log_line (line : String) : Option ParsedLine :=
  searchPattern line.toList

/-- `deque(maxlen=n).append`: append on the right, dropping from the left
whatever exceeds the capacity. -/
def dequeAppend (maxlen : Nat) (w : List String) (x : String) : List String :=
  let ys := w ++ [x]
  if maxlen < ys.length then ys.drop (ys.length - maxlen) else ys

/-- The window contents after appending a whole list of entries to an empty
deque of capacity `maxlen`. -/
def windowAfter (maxlen : Nat) (es : List String) : List String :=
  es.foldl (dequeAppend maxlen) []

/-- Per-line inputs of one iteration of the `watch_logs` body: the raw line,
the wall-clock time, and the transport oracles for the (up to two) dispatch
attempts of that iteration. -/
structure LineInput where
  line : String
  now : ℚ
  trFail : PostResult
  trErr : PostResult

/-- One iteration of the per-line body of `watch_logs` (lines 167–173):
parse the line; if parsing fails do nothing, otherwise append the
`upstream_status` to the window, run `check_failover`, then
`check_error_rate`. -/
def processLine (cfg : Config) (st : WatcherState) (li : LineInput) :
    WatcherState :=
  match parse_log_line li.line with
  | none => st
  | some p =>
      let st1 := { st with
        request_window := dequeAppend cfg.window_size st.request_window p.upstream_status }
      let st2 := (check_failover cfg st1 p.pool li.now li.trFail).1
      (check_error_rate cfg st2 li.now li.trErr).1

/-- Fold `processLine` over a list of lines. -/
def processLines (cfg : Config) (st : WatcherState) (lis : List LineInput) :
    WatcherState :=
  lis.foldl (processLine cfg) st

/-- The startup-notification block of `watch_logs` (lines 144–156): when the
webhook URL is truthy and `last_alert_time.get("startup_sent")` is falsy
(absent or zero), dispatch the "Monitor Started" alert keyed
`"startup_sent"`. -/
def startup_check (cfg : Config) (st : WatcherState) (now : ℚ)
    (tr : PostResult) : WatcherState × Option SendOutcome :=
  let flagTruthy : Bool :=
    match lookupTime st.last_alert_time "startup_sent" with
    | none => false
    | some t => !(t = 0)
  if !(cfg.webhook_url.isEmpty) && !flagTruthy then
    let res := send_slack_alert cfg st "startup_sent" now tr
    (res.1, some res.2)
  else (st, none)

/-- `watch_logs` as a whole run: the startup notification first, then the
polling loop processes log lines. -/
def watch_logs_run (cfg : Config) (st : WatcherState) (now : ℚ)
    (tr : PostResult) (lis : List LineInput) :
    WatcherState × Option SendOutcome :=
  let s := startup_check cfg st now tr
  (processLines cfg s.1 lis, s.2)

/-- One poll of the size-tracking reader loop in `watch_logs`
(lines 159–177).  The file is `none` when `os.path.exists` is false,
otherwise its full content.  The loop state is `last_size` together with all
text emitted so far; new text is read (from offset `last_size`) only when
the file has grown, and `last_size` is never decreased. -/
def pollStep (st : Nat × List Char) (file : Option (List Char)) :
    Nat × List Char :=
  match file with
  | none => st
  | some content =>
      if st.1 < content.length then
        (content.length, st.2 ++ content.drop st.1)
      else st

/-- Run the reader loop over a trace of observed file states, starting from
`last_size = 0` with nothing emitted. -/
def followRun (trace : List (Option (List Char))) : Nat × List Char :=
  trace.foldl pollStep (0, [])

/-- Split a character stream at the characters satisfying `p` (the
separators are dropped). -/
def splitBy (p : Char → Bool) : List Char → List (List Char)
  | [] => [[]]
  | c :: cs =>
      let r := splitBy p cs
      if p c then [] :: r
      else (c :: r.headD []) :: r.tail

/-- The lines of an emitted character stream (split at newlines). -/
def streamLines (cs : List Char) : List (List Char) :=
  splitBy (fun c => c = '\n') cs

/-- Numeric value of a token of decimal digits; `none` when the token is
empty or contains a non-digit. -/
def tokenToNat (cs : List Char) : Option Nat :=
  match cs with
  | [] => none
  | _ =>
      cs.foldl
        (fun acc c =>
          match acc with
          | none => none
          | some n => if c.isDigit then some (n * 10 + (c.toNat - 48)) else none)
        (some 0)

/-- Classification as the spec words it (§3, WindowEntry): the entry is an
error iff any of the status codes embedded in the space/comma-joined
upstream-status field lies in `[500,599)`, falling back to the client-facing
HTTP status when the upstream status is absent.  This definition follows the
spec text, for comparison against `statusIsError`, which is translated from
the code. -/
def specWindowEntryIsErr (upstream_status : Option String)
    (httpStatus : Option Nat) : Bool :=
  match upstream_status with
  | some s =>
      ((splitBy (fun c => c = ' ' || c = ',') s.toList).filterMap tokenToNat).any
        (fun n => decide (500 ≤ n) && decide (n < 599))
  | none =>
      match httpStatus with
      | some n => decide (500 ≤ n) && decide (n < 599)
      | none => false

namespace SpecModel

/-- Result of one `maybeNotify` call of the spec's Alert Dispatcher. -/
inductive NotifyResult where
  | dispatched
  | suppressedMaintenance
  | suppressedCooldown
deriving DecidableEq

/-- Modelled from the spec: the repository variant of the alert dispatcher
that carries the maintenance-mode flag is not under `src/` (src holds one of
the four rewrites the spec describes, without the flag).  Following §4.5:
`maybeNotify(kind, …, dedupKey, now)` suppresses first on the global
maintenance flag, before any cooldown bookkeeping is touched; then on an
active cooldown for the dedup key (without refreshing the timer); otherwise
it records `lastDispatch[dedupKey] = now` and dispatches. -/
def maybeNotify (maintenance : Bool) (cooldownDuration : ℚ)
    (lastDispatch : List (String × ℚ)) (dedupKey : String) (now : ℚ) :
    List (String × ℚ) × NotifyResult :=
  if maintenance then (lastDispatch, .suppressedMaintenance)
  else
    match lookupTime lastDispatch dedupKey with
    | some t =>
        if now - t < cooldownDuration then (lastDispatch, .suppressedCooldown)
        else (setTime lastDispatch dedupKey now, .dispatched)
    | none => (setTime lastDispatch dedupKey now, .dispatched)

/-- Run a sequence of `maybeNotify` attempts, returning the final cooldown
map and the number of dispatched notifications. -/
def runAttempts (maintenance : Bool) (cooldownDuration : ℚ)
    (lastDispatch : List (String × ℚ)) :
    List (String × ℚ) → List (String × ℚ) × Nat
  | [] => (lastDispatch, 0)
  | (key, now) :: rest =>
      let r := maybeNotify maintenance cooldownDuration lastDispatch key now
      let rec1 := runAttempts maintenance cooldownDuration r.1 rest
      (rec1.1,
        (match r.2 with
         | .dispatched => 1
         | _ => 0) + rec1.2)

end SpecModel

/-! ### Auxiliary data for the development -/

/-- The observed file contents only ever grow: each snapshot extends the
previous one (starting from `a`). -/
def GrowingFrom (a : List Char) : List (List Char) → Prop
  | [] => True
  | b :: rest => (∃ t, b = a ++ t) ∧ GrowingFrom b rest

/-- `pat` occurs as a contiguous substring of `cs`. -/
def hasSub (pat cs : List Char) : Prop := ∃ l r, cs = l ++ (pat ++ r)

/-- Iterate `check_failover` over a list of pool observations (each with its
wall-clock time and transport oracle), collecting the produced failover
events in order. -/
def runFailovers (cfg : Config) : WatcherState → List (Option String × ℚ × PostResult) →
    WatcherState × List (String × String)
  | st, [] => (st, [])
  | st, (p, t, tr) :: rest =>
      let r := check_failover cfg st p t tr
      let rec1 := runFailovers cfg r.1 rest
      (rec1.1,
        (match r.2 with
         | some e => [e.1]
         | none => []) ++ rec1.2)

/-- Configuration with a webhook URL and the code defaults
(threshold 2%, window 200, cooldown 300s). -/
def cfgHook : Config :=
  { webhook_url := "https://hooks.example/T0", error_threshold := 2,
    window_size := 200, cooldown := 300 }

/-- Configuration without a webhook URL (the `SLACK_WEBHOOK_URL` default). -/
def cfgNoHook : Config :=
  { webhook_url := "", error_threshold := 2, window_size := 200, cooldown := 300 }

/-- Configuration with a webhook URL and a 50% error threshold. -/
def cfgThresh50 : Config :=
  { webhook_url := "https://hooks.example/T0", error_threshold := 50,
    window_size := 200, cooldown := 300 }

/-- A full sample window of 10 statuses with exactly 5 server errors
(error rate exactly 50%). -/
def stWin10 : WatcherState :=
  { request_window := ["500", "500", "500", "500", "500",
                       "200", "200", "200", "200", "200"],
    last_pool := none, last_alert_time := [] }

/-- A full sample window of 10 statuses with 6 server errors (rate 60%). -/
def stWin6err : WatcherState :=
  { request_window := ["500", "500", "500", "500", "500",
                       "502", "200", "200", "200", "200"],
    last_pool := none, last_alert_time := [] }

/-- Ten window entries, one of which is a server error. -/
def es10 : List String :=
  ["500", "200", "200", "200", "200", "200", "200", "200", "200", "200"]

/-- The pool observation sequence `[A, A, B, B, A]`. -/
def obsAABBA : List (Option String × ℚ × PostResult) :=
  [(some "A", 0, .response 200), (some "A", 1, .response 200),
   (some "B", 2, .response 200), (some "B", 3, .response 200),
   (some "A", 4, .response 200)]

/-- A truncate-and-rewrite trace: the file holds `a\n`, is truncated and
rewritten to `b\n` (same size), then grows to `b\nc\n`. -/
def truncTrace : List (Option (List Char)) :=
  [some ("a\n".toList), some ("b\n".toList), some ("b\nc\n".toList)]

/-- A delete-and-recreate trace: the file holds `a\nxx\n`, disappears, and
is recreated smaller with content `b\n`. -/
def recreateTrace : List (Option (List Char)) :=
  [some ("a\nxx\n".toList), none, some ("b\n".toList)]

/-- Watcher state that has already observed pool `A`, with no alerts sent. -/
def stPoolA : WatcherState :=
  { request_window := [], last_pool := some "A", last_alert_time := [] }

/-- Watcher state after a dispatched `A → B` failover alert at time 1000. -/
def stPoolB : WatcherState :=
  { request_window := [], last_pool := some "B",
    last_alert_time := [("failover_B", 1000)] }

/-- Watcher state after dispatched `A → B` (t=1000) and `B → A` (t=1005)
failover alerts. -/
def stPoolA2 : WatcherState :=
  { request_window := [], last_pool := some "A",
    last_alert_time := [("failover_B", 1000), ("failover_A", 1005)] }

/-! ### Helper lemmas -/

/-- Appending to a bounded deque of capacity `cap` caps the length. -/
lemma dequeAppend_length (cap : Nat) (w : List String) (x : String) :
    (dequeAppend cap w x).length = min cap (w.length + 1) := by
  have hl : (w ++ [x]).length = w.length + 1 := by simp
  simp only [dequeAppend]
  split
  · rename_i h
    rw [List.length_drop, hl]
    rw [hl] at h
    omega
  · rename_i h
    rw [hl] at h ⊢
    omega

/-- Folding bounded-deque appends keeps exactly the most recent `cap`
entries of the accumulated sequence. -/
lemma foldl_dequeAppend (cap : Nat) :
    ∀ (es : List String) (acc : List String), acc.length ≤ cap →
      es.foldl (dequeAppend cap) acc = (acc ++ es).drop ((acc ++ es).length - cap)
  | [], acc, h => by
      simp only [List.foldl_nil, List.append_nil]
      rw [Nat.sub_eq_zero_of_le h, List.drop_zero]
  | e :: es, acc, h => by
      rw [List.foldl_cons]
      rw [foldl_dequeAppend cap es (dequeAppend cap acc e)
            (by rw [dequeAppend_length]; omega)]
      by_cases hc : cap < acc.length + 1
      · have hle : acc.length + 1 - cap ≤ (acc ++ [e]).length := by
          simp only [List.length_append, List.length_singleton]; omega
        have hd : dequeAppend cap acc e = (acc ++ [e]).drop (acc.length + 1 - cap) := by
          simp only [dequeAppend]
          rw [if_pos (by simp only [List.length_append, List.length_singleton]; omega)]
          simp only [List.length_append, List.length_singleton]
        have h3 : (acc ++ [e]).drop (acc.length + 1 - cap) ++ es
            = ((acc ++ [e]) ++ es).drop (acc.length + 1 - cap) :=
          (List.drop_append_of_le_length hle).symm
        rw [hd, h3, List.drop_drop]
        have h1 : (acc ++ [e]) ++ es = acc ++ e :: es := by simp
        rw [h1]
        congr 1
        simp only [List.length_drop, List.length_append, List.length_singleton,
          List.length_cons]
        omega
      · have hd : dequeAppend cap acc e = acc ++ [e] := by
          simp only [dequeAppend]
          rw [if_neg (by simp only [List.length_append, List.length_singleton]; omega)]
        rw [hd]
        have h1 : (acc ++ [e]) ++ es = acc ++ e :: es := by simp
        rw [h1]

/-- A poll that sees no file leaves the reader state unchanged. -/
lemma pollStep_none (st : Nat × List Char) : pollStep st none = st := rfl

/-- Polls while the file is absent leave the reader state unchanged. -/
lemma foldl_pollStep_replicate (d : Nat) (st : Nat × List Char) :
    (List.replicate d (none : Option (List Char))).foldl pollStep st = st := by
  induction d with
  | zero => rfl
  | succ n ih => rw [List.replicate_succ, List.foldl_cons, pollStep_none, ih]

/-- Over a growing trace, the reader loop emits exactly the file content:
starting from state `(a.length, a)` and observing only extensions of `a`,
it ends at the last snapshot having emitted it verbatim. -/
lemma foldl_pollStep_growing :
    ∀ (cs : List (List Char)) (a : List Char), GrowingFrom a cs →
      (cs.map some).foldl pollStep (a.length, a)
        = ((cs.getLastD a).length, cs.getLastD a)
  | [], a, _ => by simp [List.getLastD]
  | b :: rest, a, h => by
      obtain ⟨⟨t, ht⟩, hrest⟩ := h
      rw [List.map_cons, List.foldl_cons]
      have hstep : pollStep (a.length, a) (some b) = (b.length, b) := by
        simp only [pollStep]
        by_cases hl : a.length < b.length
        · rw [if_pos hl]
          subst ht
          simp
        · rw [if_neg hl]
          subst ht
          have : t = [] := by
            by_contra hne
            have : 0 < t.length := List.length_pos.mpr hne
            simp only [List.length_append] at hl
            omega
          subst this
          simp
      rw [hstep, foldl_pollStep_growing rest b hrest]
      rw [List.getLastD_cons]

/-- A substring occurrence survives prepending a character. -/
lemma hasSub_cons (pat : List Char) (c : Char) (cs : List Char) :
    hasSub pat cs → hasSub pat (c :: cs) := by
  rintro ⟨l, r, rfl⟩
  exact ⟨c :: l, r, rfl⟩

/-- A substring occurrence in the tail after a matched field survives
re-attaching the field. -/
lemma hasSub_shift (a g r pat : List Char) :
    hasSub pat r → hasSub pat (a ++ (g ++ '"' :: r)) := by
  rintro ⟨l, r2, rfl⟩
  exact ⟨a ++ g ++ '"' :: l, r2, by simp⟩

/-- A successful literal match decomposes the input. -/
lemma matchLit_some : ∀ (lit cs r : List Char), matchLit lit cs = some r → cs = lit ++ r
  | [], cs, r, h => by
      simp only [matchLit, Option.some.injEq] at h
      simp [h]
  | l :: ls, [], r, h => by simp [matchLit] at h
  | l :: ls, c :: cs, r, h => by
      simp only [matchLit] at h
      split at h
      · rename_i heq
        have := matchLit_some ls cs r h
        simp [heq, this]
      · exact absurd h (by simp)

/-- A successful quoted-capture consumption decomposes the input. -/
lemma takeUntilQuote_some : ∀ (cs g r : List Char),
    takeUntilQuote cs = some (g, r) → cs = g ++ '"' :: r
  | [], g, r, h => by simp [takeUntilQuote] at h
  | c :: cs, g, r, h => by
      simp only [takeUntilQuote] at h
      split at h
      · rename_i heq
        simp only [Option.some.injEq, Prod.mk.injEq] at h
        obtain ⟨h1, h2⟩ := h
        subst h1; subst h2
        simp [heq]
      · rename_i heq
        cases hrec : takeUntilQuote cs with
        | none => rw [hrec] at h; exact absurd h (by simp)
        | some pr =>
            obtain ⟨g2, r2⟩ := pr
            rw [hrec] at h
            simp only [Option.some.injEq, Prod.mk.injEq] at h
            obtain ⟨h1, h2⟩ := h
            have hcs := takeUntilQuote_some cs g2 r2 hrec
            rw [← h1, ← h2, hcs]
            simp

/-- A successful field grab decomposes the input into the literal label, the
capture, its closing quote, and the rest. -/
lemma grabField_some (lit cs g r : List Char) (h : grabField lit cs = some (g, r)) :
    cs = lit ++ (g ++ '"' :: r) := by
  rw [grabField] at h
  cases hm : matchLit lit cs with
  | none => rw [hm] at h; exact absurd h (by simp)
  | some rest =>
      rw [hm] at h
      have h1 := matchLit_some lit cs rest hm
      have h2 := takeUntilQuote_some rest g r h
      rw [h1, h2]

/-- A decomposition at the head of the input is a substring occurrence. -/
lemma hasSub_base (pat cs r : List Char) (h : cs = pat ++ r) : hasSub pat cs :=
  ⟨[], r, by simp [h]⟩

/-- Lift a substring occurrence through one matched field. -/
lemma hasSub_lift (pat2 g r2 p r : List Char)
    (e : r = pat2 ++ (g ++ '"' :: r2)) (hs : hasSub p r2) : hasSub p r := by
  rw [e]
  exact hasSub_shift pat2 g r2 p hs

/-- A successful anchored match of the whole pattern forces every one of
its six field labels to occur in the input. -/
lemma matchAt_hasSub (cs : List Char) (p : ParsedLine) (h : matchAt cs = some p) :
    hasSub patPool cs ∧ hasSub patRelease cs ∧ hasSub patUpStatus cs ∧
    hasSub patUpstream cs ∧ hasSub patReqTime cs ∧ hasSub patUpRespTime cs := by
  rw [matchAt] at h
  cases h1 : grabField patPool cs with
  | none => rw [h1] at h; exact absurd h (by simp)
  | some pr1 =>
  obtain ⟨g1, r1⟩ := pr1
  rw [h1] at h
  simp only [Option.some_bind] at h
  cases h2 : grabField patRelease r1 with
  | none => rw [h2] at h; exact absurd h (by simp)
  | some pr2 =>
  obtain ⟨g2, r2⟩ := pr2
  rw [h2] at h
  simp only [Option.some_bind] at h
  cases h3 : grabField patUpStatus r2 with
  | none => rw [h3] at h; exact absurd h (by simp)
  | some pr3 =>
  obtain ⟨g3, r3⟩ := pr3
  rw [h3] at h
  simp only [Option.some_bind] at h
  cases h4 : grabField patUpstream r3 with
  | none => rw [h4] at h; exact absurd h (by simp)
  | some pr4 =>
  obtain ⟨g4, r4⟩ := pr4
  rw [h4] at h
  simp only [Option.some_bind] at h
  cases h5 : grabField patReqTime r4 with
  | none => rw [h5] at h; exact absurd h (by simp)
  | some pr5 =>
  obtain ⟨g5, r5⟩ := pr5
  rw [h5] at h
  simp only [Option.some_bind] at h
  cases h6 : grabField patUpRespTime r5 with
  | none => rw [h6] at h; exact absurd h (by simp)
  | some pr6 =>
  obtain ⟨g6, r6⟩ := pr6
  have e1 := grabField_some patPool cs g1 r1 h1
  have e2 := grabField_some patRelease r1 g2 r2 h2
  have e3 := grabField_some patUpStatus r2 g3 r3 h3
  have e4 := grabField_some patUpstream r3 g4 r4 h4
  have e5 := grabField_some patReqTime r4 g5 r5 h5
  have e6 := grabField_some patUpRespTime r5 g6 r6 h6
  refine ⟨hasSub_base _ _ _ e1, ?_, ?_, ?_, ?_, ?_⟩
  · exact hasSub_lift _ _ _ _ _ e1 (hasSub_base _ _ _ e2)
  · exact hasSub_lift _ _ _ _ _ e1 (hasSub_lift _ _ _ _ _ e2 (hasSub_base _ _ _ e3))
  · exact hasSub_lift _ _ _ _ _ e1 (hasSub_lift _ _ _ _ _ e2
      (hasSub_lift _ _ _ _ _ e3 (hasSub_base _ _ _ e4)))
  · exact hasSub_lift _ _ _ _ _ e1 (hasSub_lift _ _ _ _ _ e2
      (hasSub_lift _ _ _ _ _ e3 (hasSub_lift _ _ _ _ _ e4 (hasSub_base _ _ _ e5))))
  · exact hasSub_lift _ _ _ _ _ e1 (hasSub_lift _ _ _ _ _ e2
      (hasSub_lift _ _ _ _ _ e3 (hasSub_lift _ _ _ _ _ e4
        (hasSub_lift _ _ _ _ _ e5 (hasSub_base _ _ _ e6)))))

/-- A successful search anywhere in the line forces every one of the six
field labels to occur in the line. -/
lemma searchPattern_hasSub : ∀ (cs : List Char) (p : ParsedLine),
    searchPattern cs = some p →
    hasSub patPool cs ∧ hasSub patRelease cs ∧ hasSub patUpStatus cs ∧
    hasSub patUpstream cs ∧ hasSub patReqTime cs ∧ hasSub patUpRespTime cs
  | [], p, h => by simp [searchPattern] at h
  | c :: cs, p, h => by
      rw [searchPattern] at h
      cases hm : matchAt (c :: cs) with
      | some q => exact matchAt_hasSub _ q hm
      | none =>
          rw [hm] at h
          have ih := searchPattern_hasSub cs p h
          exact ⟨hasSub_cons _ c _ ih.1, hasSub_cons _ c _ ih.2.1,
            hasSub_cons _ c _ ih.2.2.1, hasSub_cons _ c _ ih.2.2.2.1,
            hasSub_cons _ c _ ih.2.2.2.2.1, hasSub_cons _ c _ ih.2.2.2.2.2⟩

/-- Setting one key of the cooldown map does not disturb lookups of a
different key. -/
lemma lookupTime_setTime_ne : ∀ (m : List (String × ℚ)) (k1 k2 : String) (t : ℚ),
    k1 ≠ k2 → lookupTime (setTime m k2 t) k1 = lookupTime m k1
  | [], k1, k2, t, h => by
      simp only [setTime, lookupTime]
      rw [if_neg (fun he => h he.symm)]
  | (ka, va) :: rest, k1, k2, t, h => by
      simp only [setTime]
      by_cases hk : ka = k2
      · simp only [if_pos hk, lookupTime]
        rw [if_neg (fun he => h he.symm), if_neg (by rw [hk]; exact fun he => h he.symm)]
      · simp only [if_neg hk, lookupTime]
        by_cases hk1 : ka = k1
        · rw [if_pos hk1, if_pos hk1]
        · rw [if_neg hk1, if_neg hk1]
          exact lookupTime_setTime_ne rest k1 k2 t h

/-- Distinct destination pools give distinct failover cooldown keys. -/
lemma failover_key_ne (p q : String) (h : p ≠ q) :
    ("failover_" ++ p) ≠ ("failover_" ++ q) := by
  intro he
  apply h
  have hd : ("failover_" ++ p).data = ("failover_" ++ q).data := by rw [he]
  rw [String.data_append, String.data_append] at hd
  have := List.append_cancel_left hd
  cases p; cases q
  simp only at this
  rw [this]

/-- Evaluate the window error rate from the error count and window size. -/
lemma error_rate_eq (w : List String) (e n : Nat)
    (he : (w.filter statusIsError).length = e) (hn : w.length = n) :
    error_rate w = (e : ℚ) / (n : ℚ) * 100 := by
  rw [error_rate, he, hn]

/-- When the webhook is configured, the cooldown has lapsed, and the post
returns status 200, `send_slack_alert` records the dispatch timestamp. -/
lemma send_slack_alert_dispatch (cfg : Config) (st : WatcherState) (key : String)
    (now : ℚ) (hw : cfg.webhook_url.isEmpty = false)
    (hcd : ¬(now - (lookupTime st.last_alert_time key).getD 0 < cfg.cooldown)) :
    send_slack_alert cfg st key now (.response 200)
      = ({ st with last_alert_time := setTime st.last_alert_time key now }, .sent) := by
  rw [send_slack_alert, if_neg (by simp [hw]), if_neg hcd, if_pos rfl]

/-- First step of the double-failover scenario: the `A → B` alert at time
1000 dispatches under the key `failover_B`. -/
lemma c9step1 : check_failover cfgHook stPoolA (some "B") 1000 (.response 200)
    = (stPoolB, some (("A", "B"), .sent)) := by
  have hkey : ("failover_" ++ (some "B").getD "") = "failover_B" := rfl
  have hs := send_slack_alert_dispatch cfgHook stPoolA
    ("failover_" ++ (some "B").getD "") 1000 (by decide)
    (by norm_num [hkey, stPoolA, lookupTime, cfgHook])
  simp only [check_failover]
  rw [if_pos (by decide), if_pos (by decide), hs]
  rfl

/-- Second step of the double-failover scenario: the `B → A` alert at time
1005 (within the cooldown of the first alert) dispatches under the distinct
key `failover_A`. -/
lemma c9step2 : check_failover cfgHook stPoolB (some "A") 1005 (.response 200)
    = (stPoolA2, some (("B", "A"), .sent)) := by
  have hlook : lookupTime stPoolB.last_alert_time
      ("failover_" ++ (some "A").getD "") = none := rfl
  have hs := send_slack_alert_dispatch cfgHook stPoolB
    ("failover_" ++ (some "A").getD "") 1005 (by decide)
    (by rw [hlook]; norm_num [cfgHook])
  simp only [check_failover]
  rw [if_pos (by decide), if_pos (by decide), hs]
  rfl

/-! ### Claim theorems -/

/-- C1 (counterexample): a dispatch attempt that passes the cooldown check
but fails in transport (a 500 response, or an exception) returns the state
unchanged — the cooldown timestamp for the key is NOT set to the attempt
time, contradicting the claim that a failed delivery counts against the
cooldown window. -/
theorem watcher_c1_counterexample :
    send_slack_alert cfgHook WatcherState.init "error_rate" 1000 (.response 500)
      = (WatcherState.init, .httpError 500)
    ∧ send_slack_alert cfgHook WatcherState.init "error_rate" 1000 .exn
      = (WatcherState.init, .postFailed)
    ∧ lookupTime (send_slack_alert cfgHook WatcherState.init "error_rate" 1000
        (.response 500)).1.last_alert_time "error_rate" = none := by
  have h1 : send_slack_alert cfgHook WatcherState.init "error_rate" 1000 (.response 500)
      = (WatcherState.init, .httpError 500) := by
    rw [send_slack_alert, if_neg (by decide)]
    rw [if_neg (by norm_num [WatcherState.init, lookupTime, cfgHook])]
    rw [if_neg (by decide)]
  have h2 : send_slack_alert cfgHook WatcherState.init "error_rate" 1000 .exn
      = (WatcherState.init, .postFailed) := by
    rw [send_slack_alert, if_neg (by decide)]
    rw [if_neg (by norm_num [WatcherState.init, lookupTime, cfgHook])]
  exact ⟨h1, h2, by rw [h1]; rfl⟩

/-- C1 (amended): the cooldown timestamp is recorded only when the HTTP post
returns status exactly 200.  Any transport failure (non-200 response or
exception) leaves the watcher state — in particular the cooldown map —
unchanged, so a failed delivery does NOT count against the cooldown window;
a successful dispatch does record `last_alert_time[key] = now`. -/
theorem watcher_c1_amended (cfg : Config) (st : WatcherState) (key : String)
    (now : ℚ) (tr : PostResult) :
    (tr ≠ PostResult.response 200 → (send_slack_alert cfg st key now tr).1 = st)
    ∧ (cfg.webhook_url.isEmpty = false →
        ¬(now - (lookupTime st.last_alert_time key).getD 0 < cfg.cooldown) →
        send_slack_alert cfg st key now (.response 200)
          = ({ st with last_alert_time := setTime st.last_alert_time key now },
             .sent)) := by
  constructor
  · intro h
    rw [send_slack_alert.eq_def]
    by_cases hw : cfg.webhook_url.isEmpty = true
    · rw [if_pos hw]
    · rw [if_neg hw]
      by_cases hc : now - (lookupTime st.last_alert_time key).getD 0 < cfg.cooldown
      · rw [if_pos hc]
      · rw [if_neg hc]
        cases tr with
        | exn => rfl
        | response code =>
            have hcode : code ≠ 200 := fun he => h (by rw [he])
            simp only [if_neg hcode]
  · intro hw hcd
    exact send_slack_alert_dispatch cfg st key now hw hcd

/-- C1 (witness): at time 1000 with an empty cooldown map, a transport
exception leaves the state unchanged, while a 200 response records the
timestamp. -/
theorem watcher_c1_witness :
    (send_slack_alert cfgHook WatcherState.init "error_rate" 1000 PostResult.exn).1
        = WatcherState.init
    ∧ send_slack_alert cfgHook WatcherState.init "error_rate" 1000 (.response 200)
        = ({ WatcherState.init with
              last_alert_time := setTime WatcherState.init.last_alert_time "error_rate" 1000 },
           .sent) :=
  ⟨(watcher_c1_amended cfgHook WatcherState.init "error_rate" 1000 PostResult.exn).1
      (by decide),
   (watcher_c1_amended cfgHook WatcherState.init "error_rate" 1000
      (PostResult.response 200)).2 (by decide)
      (by norm_num [WatcherState.init, lookupTime, cfgHook])⟩

/-- C2: with the maintenance flag active, every `maybeNotify` call is
suppressed with reason `suppressedMaintenance` and the cooldown map is
returned untouched; over any sequence of attempts, zero notifications are
dispatched and the final cooldown map equals the initial one.  The
dispatcher variant carrying the maintenance flag is modelled from the spec
(§4.5), as it is not part of the source under `src/`. -/
theorem watcher_c2 (cd : ℚ) (m : List (String × ℚ))
    (attempts : List (String × ℚ)) (key : String) (now : ℚ) :
    SpecModel.maybeNotify true cd m key now
      = (m, SpecModel.NotifyResult.suppressedMaintenance)
    ∧ SpecModel.runAttempts true cd m attempts = (m, 0) := by
  constructor
  · rfl
  · induction attempts generalizing m with
    | nil => rfl
    | cons a rest ih =>
        obtain ⟨k2, t2⟩ := a
        simp only [SpecModel.runAttempts, SpecModel.maybeNotify, if_true]
        rw [ih]
        rfl

/-- C3 (counterexample): over a truncate-and-rewrite trace the reader loop
of `watch_logs` loses the rewritten line `b` (it never appears in the
emitted stream), and after a truncation the tracked offset stays at its old
value 2 instead of restarting at 0; over a delete-and-recreate trace with a
smaller new file, the recreated content `b` is likewise never emitted. -/
theorem watcher_c3_counterexample :
    (followRun truncTrace).2 = "a\nc\n".toList
    ∧ "b".toList ∈ streamLines ("b\nc\n".toList)
    ∧ "b".toList ∉ streamLines (followRun truncTrace).2
    ∧ (followRun [some ("a\n".toList), some ("b\n".toList)]).1 = 2
    ∧ (followRun recreateTrace).2 = "a\nxx\n".toList
    ∧ "b".toList ∉ streamLines (followRun recreateTrace).2 := by decide

/-- C3 (amended): for append-only histories — an arbitrary delay before the
file first exists, followed by snapshots in which the content only ever
grows — the reader loop emits exactly the written text, so every appended
line is yielded exactly once and in order.  The truncation and
delete-and-recreate parts of the claim fail (the offset is never clamped;
see the counterexample). -/
theorem watcher_c3_amended (d : Nat) (cs : List (List Char))
    (h : GrowingFrom [] cs) :
    followRun (List.replicate d none ++ cs.map some)
        = ((cs.getLastD []).length, cs.getLastD [])
    ∧ streamLines (followRun (List.replicate d none ++ cs.map some)).2
        = streamLines (cs.getLastD []) := by
  have h1 : followRun (List.replicate d none ++ cs.map some)
      = ((cs.getLastD []).length, cs.getLastD []) := by
    rw [followRun, List.foldl_append, foldl_pollStep_replicate]
    exact foldl_pollStep_growing cs [] h
  exact ⟨h1, by rw [h1]⟩

/-- C3 (witness): after two polls with no file and two growing snapshots,
the loop has emitted exactly the final content `a\nb\n`. -/
theorem watcher_c3_witness :
    followRun (List.replicate 2 none ++ [("a\n".toList), ("a\nb\n".toList)].map some)
      = (4, "a\nb\n".toList) :=
  (watcher_c3_amended 2 [("a\n".toList), ("a\nb\n".toList)]
    ⟨⟨"a\n".toList, by decide⟩, ⟨"b\n".toList, by decide⟩, trivial⟩).1

/-- C4 (counterexample): with threshold 50% and a 10-entry window whose
error rate is exactly 50%, `check_error_rate` dispatches nothing — a ratio
exactly equal to the threshold does NOT trigger the alert, contradicting
the claimed inclusive (`>=`) comparison. -/
theorem watcher_c4_counterexample :
    error_rate stWin10.request_window = cfgThresh50.error_threshold
    ∧ 10 ≤ stWin10.request_window.length
    ∧ check_error_rate cfgThresh50 stWin10 1000 (.response 200) = (stWin10, none) := by
  have h1 : error_rate stWin10.request_window = (5 : ℚ) / (10 : ℚ) * 100 :=
    error_rate_eq _ 5 10 (by decide) (by decide)
  refine ⟨by rw [h1]; norm_num [cfgThresh50], by decide, ?_⟩
  rw [check_error_rate, if_neg (by decide)]
  rw [if_neg (by rw [h1]; norm_num [cfgThresh50])]

/-- C4 (amended): the breach comparison is strict (`>`): a window whose
error rate equals the threshold produces no alert, and whenever the sample
floor is met and the rate strictly exceeds the threshold the alert keyed
`"error_rate"` is routed to the dispatcher. -/
theorem watcher_c4_amended (cfg : Config) (st : WatcherState) (now : ℚ)
    (tr : PostResult) :
    (error_rate st.request_window = cfg.error_threshold →
        check_error_rate cfg st now tr = (st, none))
    ∧ (10 ≤ st.request_window.length →
        cfg.error_threshold < error_rate st.request_window →
        check_error_rate cfg st now tr
          = ((send_slack_alert cfg st "error_rate" now tr).1,
             some (send_slack_alert cfg st "error_rate" now tr).2)) := by
  constructor
  · intro he
    rw [check_error_rate]
    by_cases hl : st.request_window.length < 10
    · rw [if_pos hl]
    · rw [if_neg hl, if_neg (by rw [he]; exact lt_irrefl _)]
  · intro hl hgt
    rw [check_error_rate, if_neg (by omega), if_pos hgt]

/-- C4 (witness): a 50%-rate window at a 50% threshold yields no dispatch,
while a 60%-rate window at the same threshold routes the alert. -/
theorem watcher_c4_witness :
    check_error_rate cfgThresh50 stWin10 1000 (.response 200) = (stWin10, none)
    ∧ check_error_rate cfgThresh50 stWin6err 1000 PostResult.exn
        = ((send_slack_alert cfgThresh50 stWin6err "error_rate" 1000 PostResult.exn).1,
           some (send_slack_alert cfgThresh50 stWin6err "error_rate" 1000 PostResult.exn).2) :=
  ⟨(watcher_c4_amended cfgThresh50 stWin10 1000 (.response 200)).1
      (by rw [error_rate_eq _ 5 10 (by decide) (by decide)]; norm_num [cfgThresh50]),
   (watcher_c4_amended cfgThresh50 stWin6err 1000 PostResult.exn).2 (by decide)
      (by rw [error_rate_eq _ 6 10 (by decide) (by decide)]; norm_num [cfgThresh50])⟩

/-- C5 (counterexample): the upstream-status string `"200, 502"` embeds the
code 502 ∈ [500,599), so the spec-worded classification marks it an error,
but the code's classification (`s.startswith("5")`) does not — the claimed
any-embedded-code rule does not hold of the program. -/
theorem watcher_c5_counterexample :
    statusIsError "200, 502" = false
    ∧ specWindowEntryIsErr (some "200, 502") none = true := by decide

/-- C5 (amended): a window entry is classified as an error iff its
upstream-status string starts with the character `'5'`; for a single
three-digit status code this is exactly membership in [500,600).  Codes
embedded after the first are not examined, and there is no fallback to the
client-facing HTTP status (the parser does not extract one). -/
theorem watcher_c5_amended : ∀ (a b c : Fin 10),
    statusIsError
        (String.mk [Nat.digitChar a.val, Nat.digitChar b.val, Nat.digitChar c.val])
      = (decide (500 ≤ 100 * a.val + 10 * b.val + c.val)
          && decide (100 * a.val + 10 * b.val + c.val < 600)) := by decide

/-- C6: the window after appending any entry sequence holds exactly the most
recent `capacity` entries (so one past capacity evicts the oldest); when the
sequence fits the capacity the window is the sequence itself and, at or
above the 10-sample floor, the error rate equals `100·e/k`; below the floor
`check_error_rate` produces no alert and leaves the state unchanged. -/
theorem watcher_c6 (cap : Nat) (es : List String) :
    windowAfter cap es = es.drop (es.length - cap)
    ∧ (es.length ≤ cap → windowAfter cap es = es)
    ∧ (es.length ≤ cap → 10 ≤ es.length →
        error_rate (windowAfter cap es)
          = 100 * ((es.filter statusIsError).length : ℚ) / (es.length : ℚ))
    ∧ (∀ (cfg : Config) (st : WatcherState) (now : ℚ) (tr : PostResult),
        st.request_window.length < 10 → check_error_rate cfg st now tr = (st, none)) := by
  have h1 : windowAfter cap es = es.drop (es.length - cap) := by
    rw [windowAfter, foldl_dequeAppend cap es [] (by simp)]
    simp
  have h2 : es.length ≤ cap → windowAfter cap es = es := by
    intro hle
    rw [h1, Nat.sub_eq_zero_of_le hle, List.drop_zero]
  refine ⟨h1, h2, ?_, ?_⟩
  · intro hle _
    rw [h2 hle, error_rate]
    ring
  · intro cfg st now tr hlen
    rw [check_error_rate, if_pos hlen]

/-- C6 (witness): ten entries with one error in a capacity-20 window give
rate `100·1/10`, and a one-entry window (below the floor) yields no alert. -/
theorem watcher_c6_witness :
    windowAfter 20 es10 = es10
    ∧ error_rate (windowAfter 20 es10)
        = 100 * ((es10.filter statusIsError).length : ℚ) / (es10.length : ℚ)
    ∧ check_error_rate cfgHook
        { request_window := ["500"], last_pool := none, last_alert_time := [] }
        0 PostResult.exn
        = ({ request_window := ["500"], last_pool := none, last_alert_time := [] }, none) :=
  ⟨(watcher_c6 20 es10).2.1 (by decide),
   (watcher_c6 20 es10).2.2.1 (by decide) (by decide),
   (watcher_c6 20 es10).2.2.2 cfgHook _ 0 PostResult.exn (by decide)⟩

/-- C7: over the pool sequence `[A, A, B, B, A]` exactly two failover events
are produced, `A→B` at the third observation and `B→A` at the fifth, with no
event before; and an empty or missing pool field leaves the state (stored
pool included) entirely unchanged and produces no event. -/
theorem watcher_c7 :
    ((runFailovers cfgNoHook WatcherState.init obsAABBA).2 = [("A", "B"), ("B", "A")]
      ∧ (runFailovers cfgNoHook WatcherState.init (obsAABBA.take 1)).2 = []
      ∧ (runFailovers cfgNoHook WatcherState.init (obsAABBA.take 2)).2 = []
      ∧ (runFailovers cfgNoHook WatcherState.init (obsAABBA.take 3)).2 = [("A", "B")]
      ∧ (runFailovers cfgNoHook WatcherState.init (obsAABBA.take 4)).2 = [("A", "B")])
    ∧ (∀ (cfg : Config) (st : WatcherState) (now : ℚ) (tr : PostResult),
        check_failover cfg st none now tr = (st, none))
    ∧ (∀ (cfg : Config) (st : WatcherState) (now : ℚ) (tr : PostResult),
        check_failover cfg st (some "") now tr = (st, none)) := by
  refine ⟨by decide, fun cfg st now tr => rfl, fun cfg st now tr => rfl⟩

/-- C8: the line parser is total — on every input it returns a structured
record or `None`; a successful parse forces all six required field labels to
occur in the line (so a line missing any of them parses to `None`); and a
line that parses to `None` leaves the whole watcher state — window, stored
pool, and cooldown map — unchanged. -/
theorem watcher_c8 (line : String) :
    (parse_log_line line = none ∨ ∃ p, parse_log_line line = some p)
    ∧ (∀ p, parse_log_line line = some p →
        hasSub patPool line.toList ∧ hasSub patRelease line.toList ∧
        hasSub patUpStatus line.toList ∧ hasSub patUpstream line.toList ∧
        hasSub patReqTime line.toList ∧ hasSub patUpRespTime line.toList)
    ∧ (∀ (cfg : Config) (st : WatcherState) (li : LineInput),
        li.line = line → parse_log_line line = none → processLine cfg st li = st) := by
  refine ⟨?_, ?_, ?_⟩
  · cases h : parse_log_line line with
    | none => exact Or.inl rfl
    | some p => exact Or.inr ⟨p, rfl⟩
  · intro p h
    exact searchPattern_hasSub line.toList p h
  · intro cfg st li hl h
    rw [processLine, hl, h]

/-- C8 (witness): a line with none of the required fields parses to `None`
and leaves the initial state unchanged through `processLine`. -/
theorem watcher_c8_witness :
    processLine cfgNoHook WatcherState.init
      { line := "no structured fields", now := 0,
        trFail := .response 200, trErr := .response 200 }
      = WatcherState.init :=
  (watcher_c8 "no structured fields").2.2 cfgNoHook WatcherState.init _ rfl rfl

/-- C9: failover alerts are cooldown-keyed by the destination pool — setting
the key `failover_q` never disturbs the cooldown entry of `failover_p` for
`p ≠ q` — and in the concrete run an `A→B` alert at time 1000 followed
within the 300-second cooldown by a `B→A` alert at time 1005 both
dispatch. -/
theorem watcher_c9 :
    (∀ (m : List (String × ℚ)) (p q : String) (t : ℚ), p ≠ q →
        lookupTime (setTime m ("failover_" ++ q) t) ("failover_" ++ p)
          = lookupTime m ("failover_" ++ p))
    ∧ check_failover cfgHook stPoolA (some "B") 1000 (.response 200)
        = (stPoolB, some (("A", "B"), .sent))
    ∧ check_failover cfgHook stPoolB (some "A") 1005 (.response 200)
        = (stPoolA2, some (("B", "A"), .sent))
    ∧ ((1005 : ℚ) - 1000 < cfgHook.cooldown) := by
  refine ⟨?_, c9step1, c9step2, by norm_num [cfgHook]⟩
  intro m p q t hpq
  exact lookupTime_setTime_ne m _ _ t (failover_key_ne p q hpq)

/-- C9 (witness): recording a dispatch under `failover_B` leaves the lookup
of `failover_A` unchanged. -/
theorem watcher_c9_witness :
    lookupTime (setTime [] ("failover_" ++ "B") 1000) ("failover_" ++ "A")
      = lookupTime [] ("failover_" ++ "A") :=
  watcher_c9.1 [] "A" "B" 1000 (by decide)

/-- C10: with a webhook configured and a fresh watcher state, `watch_logs`
performs the startup notification before processing any log line; the
"Monitor Started" post is attempted exactly once, and when it returns 200
the timestamp is recorded under `"startup_sent"` in the same
`last_alert_time` map used by the operational alerts. -/
theorem watcher_c10 (cfg : Config) (now : ℚ) (tr : PostResult)
    (lis : List LineInput) (hw : cfg.webhook_url.isEmpty = false)
    (hcd : cfg.cooldown ≤ now) :
    watch_logs_run cfg WatcherState.init now tr lis
        = (processLines cfg (startup_check cfg WatcherState.init now tr).1 lis,
           (startup_check cfg WatcherState.init now tr).2)
    ∧ (startup_check cfg WatcherState.init now tr).2.map SendOutcome.attempted
        = some true
    ∧ (tr = PostResult.response 200 →
        lookupTime (startup_check cfg WatcherState.init now tr).1.last_alert_time
          "startup_sent" = some now) := by
  have hcd2 : ¬(now - (lookupTime WatcherState.init.last_alert_time
      "startup_sent").getD 0 < cfg.cooldown) := by
    have h0 : lookupTime WatcherState.init.last_alert_time "startup_sent" = none := rfl
    rw [h0, Option.getD_none, sub_zero]
    exact not_lt.mpr hcd
  have hstart : startup_check cfg WatcherState.init now tr
      = ((send_slack_alert cfg WatcherState.init "startup_sent" now tr).1,
         some (send_slack_alert cfg WatcherState.init "startup_sent" now tr).2) := by
    rw [startup_check]
    rw [if_pos (by simp [hw, WatcherState.init, lookupTime])]
  refine ⟨rfl, ?_, ?_⟩
  · rw [hstart]
    simp only [Option.map_some]
    rw [send_slack_alert.eq_def, if_neg (by simp [hw]), if_neg hcd2]
    cases tr with
    | exn => rfl
    | response code =>
        by_cases hc : code = 200
        · simp only [if_pos hc]
          rfl
        · simp only [if_neg hc]
          rfl
  · intro htr
    subst htr
    rw [hstart, send_slack_alert_dispatch cfg WatcherState.init "startup_sent" now hw hcd2]
    simp [WatcherState.init, setTime, lookupTime]

/-- C10 (witness): with the sample webhook configuration at time 1000 and a
200 response, the startup post is attempted and the timestamp is recorded
under `"startup_sent"`. -/
theorem watcher_c10_witness :
    (startup_check cfgHook WatcherState.init 1000 (.response 200)).2.map
        SendOutcome.attempted = some true
    ∧ lookupTime (startup_check cfgHook WatcherState.init 1000
        (.response 200)).1.last_alert_time "startup_sent" = some 1000 :=
  ⟨(watcher_c10 cfgHook 1000 (.response 200) [] (by decide)
      (by norm_num [cfgHook])).2.1,
   (watcher_c10 cfgHook 1000 (.response 200) [] (by decide)
      (by norm_num [cfgHook])).2.2 rfl⟩

end Watcher
